import Mathlib

/-!
Verification of the withdrawal-dispatcher backend (`main.py`).

The development shallowly embeds the dispatcher `process_withdrawal`, the
contract-ordering logic, the HTTP endpoint `withdraw_endpoint` and the
startup routine `init_web3`.  External chain interactions (address
validation, metadata lookup, gas/nonce fetches, transaction broadcast
results) are modelled by an explicit environment `ChainEnv`; the dispatcher
itself is a pure function from that environment that additionally returns
the trace of attempted operations, so that ordering, early-termination and
nonce-freshness properties can be stated.
-/

namespace Ultra

/-- A contract registry entry: `{"id": ..., "name": ..., "address": ...}`. -/
structure ContractData where
  id : Nat
  name : String
  address : String
deriving DecidableEq, Repr

/-- `CONTRACTS[0]` of `main.py`. -/
def contract1 : ContractData :=
  ⟨1, "Primary", "0x29983BE497D4c1D39Aa80D20Cf74173ae81D2af5"⟩

/-- `CONTRACTS[1]` of `main.py`. -/
def contract2 : ContractData :=
  ⟨2, "Secondary", "0x0b8Add0d32eFaF79E6DB4C58CcA61D6eFBCcAa3D"⟩

/-- `CONTRACTS[2]` of `main.py`. -/
def contract3 : ContractData :=
  ⟨3, "Tertiary", "0xf97A395850304b8ec9B8f9c80A17674886612065"⟩

/-- The fixed registry `CONTRACTS` of `main.py`. -/
def CONTRACTS : List ContractData := [contract1, contract2, contract3]

/-- The two candidate on-chain operations tried per contract. -/
inductive Op where
  | mint
  | transfer
deriving DecidableEq, Repr

/-- Result of one mint/transfer attempt, as observed by the dispatcher.
`ok` is a receipt with `status == 1`; `failNoSend` is an exception raised
before `send_raw_transaction` succeeded (construction/signing/broadcast
rejection); `failOnChain` is a failure after the raw transaction was
accepted (receipt `status != 1` or receipt-wait timeout). -/
inductive AttemptRes where
  | ok (txHash : String) (blockNumber gasUsed : Nat)
  | failNoSend (reason : String)
  | failOnChain (reason : String)
deriving DecidableEq, Repr

/-- Whether the attempt ended in an on-chain success (receipt status 1). -/
def AttemptRes.isOk : AttemptRes → Bool
  | AttemptRes.ok _ _ _ => true
  | _ => false

/-- The chain / web3 environment the dispatcher runs against.  `nonceAt k`
is the value returned by the k-th `get_transaction_count` call of this
dispatch; `metadata` is `none` when the `symbol()`/`decimals()` lookup
raises; `chainOk a` is whether building the contract object and fetching
gas price and nonce for contract `a` succeed (the outer `try` of the
per-contract loop); `attempt a op` is the outcome of the mint/transfer
attempt against contract address `a`. -/
structure ChainEnv where
  connected : Bool
  isAddress : String → Bool
  metadata : String → Option (String × Nat)
  chainOk : String → Bool
  nonceAt : Nat → Nat
  attempt : String → Op → AttemptRes

/-- `(token_symbol, token_decimals)` after the metadata `try/except`:
the looked-up pair, or `("TOKEN", 18)` when the lookup raised. -/
def tokenInfo (env : ChainEnv) (addr : String) : String × Nat :=
  (env.metadata addr).getD ("TOKEN", 18)

/-- Python `int(...)`: truncation of a rational toward zero. -/
def pyInt (q : ℚ) : ℤ := if 0 ≤ q then ⌊q⌋ else ⌈q⌉

/-- Python `str.lower()` on the ASCII address strings compared by the
ordering logic: lower-case every character. -/
def lowerStr (s : String) : String := String.mk (s.data.map Char.toLower)

/-- One attempted operation, recorded in the dispatch trace:
contract identity and address, operation kind, the base-unit amount put in
the transaction, the index of the `get_transaction_count` call that
produced its nonce, that nonce, whether a signed raw transaction reached
the network (`sent`), and whether the receipt reported success (`ok`). -/
structure AttemptEv where
  cid : Nat
  address : String
  op : Op
  amountWei : ℤ
  nonceIdx : Nat
  nonce : Nat
  sent : Bool
  ok : Bool
deriving DecidableEq, Repr

/-- The success dictionary returned by `process_withdrawal`. -/
structure WithdrawResult where
  method : Op
  contract : String
  contractAddress : String
  txHash : String
  blockNumber : Nat
  symbol : String
  gasUsed : Nat
deriving DecidableEq, Repr

/-- The exceptions `process_withdrawal` can raise:
`HTTPException(503, "Web3 not connected")`, `ValueError("Invalid wallet
address")`, `ValueError("Invalid amount")`, and
`HTTPException(500, "All withdrawal methods exhausted")`. -/
inductive WithdrawErr where
  | notConnected
  | invalidWallet
  | invalidAmount
  | exhausted
deriving DecidableEq, Repr

/-- The error is one of the precondition failures of the taxonomy
(signer/chain not ready, malformed destination, non-positive amount). -/
def WithdrawErr.isPrecond : WithdrawErr → Bool
  | WithdrawErr.exhausted => false
  | _ => true

/-- The `str(...)` text of the exception. -/
def errText : WithdrawErr → String
  | WithdrawErr.notConnected => "503: Web3 not connected"
  | WithdrawErr.invalidWallet => "Invalid wallet address"
  | WithdrawErr.invalidAmount => "Invalid amount"
  | WithdrawErr.exhausted => "500: All withdrawal methods exhausted"

/-- The trace record of a MINT attempt started at nonce-query index `ctr`.
The recorded base-unit amount is the exact rational product truncated by
`pyInt`; the source computes that product in binary64 floating point, so
this field idealizes line 162 of `main.py` and no theorem below relies on
its value ranging over amounts where the float product differs. -/
def mintEv (env : ChainEnv) (amount : ℚ) (c : ContractData) (ctr : Nat)
    (s k : Bool) : AttemptEv :=
  ⟨c.id, c.address, Op.mint, pyInt (amount * (10 : ℚ) ^ (tokenInfo env c.address).2),
    ctr, env.nonceAt ctr, s, k⟩

/-- The trace record of the TRANSFER attempt following a MINT attempt that
started at nonce-query index `ctr`; it re-queries the nonce (index `ctr+1`).
The base-unit amount field carries the same exact-rational idealization as
`mintEv`. -/
def transferEv (env : ChainEnv) (amount : ℚ) (c : ContractData) (ctr : Nat)
    (s k : Bool) : AttemptEv :=
  ⟨c.id, c.address, Op.transfer, pyInt (amount * (10 : ℚ) ^ (tokenInfo env c.address).2),
    ctr + 1, env.nonceAt (ctr + 1), s, k⟩

/-- The body of one iteration of the per-contract loop of
`process_withdrawal` (lines 145-240 of `main.py`): resolve metadata with
fallback, convert the amount, fetch gas price and nonce, try `mint()`,
then on failure re-fetch the nonce and try `transfer()`.  Returns the
attempt events, the next nonce-query index, and the success result if any
(`none` means fall through to the next contract). -/
def tryContract (env : ChainEnv) (amount : ℚ) (c : ContractData) (ctr : Nat) :
    List AttemptEv × Nat × Option WithdrawResult :=
  if env.chainOk c.address then
    match env.attempt c.address Op.mint with
    | AttemptRes.ok h bn g =>
        ([mintEv env amount c ctr true true], ctr + 1,
          some ⟨Op.mint, c.name, c.address, h, bn, (tokenInfo env c.address).1, g⟩)
    | AttemptRes.failNoSend _ =>
        match env.attempt c.address Op.transfer with
        | AttemptRes.ok h bn g =>
            ([mintEv env amount c ctr false false, transferEv env amount c ctr true true],
              ctr + 2,
              some ⟨Op.transfer, c.name, c.address, h, bn, (tokenInfo env c.address).1, g⟩)
        | AttemptRes.failNoSend _ =>
            ([mintEv env amount c ctr false false, transferEv env amount c ctr false false],
              ctr + 2, none)
        | AttemptRes.failOnChain _ =>
            ([mintEv env amount c ctr false false, transferEv env amount c ctr true false],
              ctr + 2, none)
    | AttemptRes.failOnChain _ =>
        match env.attempt c.address Op.transfer with
        | AttemptRes.ok h bn g =>
            ([mintEv env amount c ctr true false, transferEv env amount c ctr true true],
              ctr + 2,
              some ⟨Op.transfer, c.name, c.address, h, bn, (tokenInfo env c.address).1, g⟩)
        | AttemptRes.failNoSend _ =>
            ([mintEv env amount c ctr true false, transferEv env amount c ctr false false],
              ctr + 2, none)
        | AttemptRes.failOnChain _ =>
            ([mintEv env amount c ctr true false, transferEv env amount c ctr true false],
              ctr + 2, none)
  else ([], ctr, none)

/-- The fallback loop over the ordered contract list: first success
terminates the dispatch, exhaustion raises
`HTTPException(500, "All withdrawal methods exhausted")`. -/
def withdrawLoop (env : ChainEnv) (amount : ℚ) :
    List ContractData → Nat → List AttemptEv →
      List AttemptEv × Except WithdrawErr WithdrawResult
  | [], _, acc => (acc, Except.error WithdrawErr.exhausted)
  | c :: rest, ctr, acc =>
      match tryContract env amount c ctr with
      | (evs, _, some r) => (acc ++ evs, Except.ok r)
      | (evs, ctr2, none) => withdrawLoop env amount rest ctr2 (acc ++ evs)

/-- The contract-ordering logic of `process_withdrawal` (lines 132-141):
seed the list with the first registry entry whose address equals the
preferred address case-insensitively (if a truthy preferred address was
given), then append every registry entry not already in the list. -/
def build_contract_list (reg : List ContractData) (pref : Option String) :
    List ContractData :=
  let start :=
    match pref with
    | none => []
    | some p =>
        if p = "" then []
        else
          match reg.find? (fun c => lowerStr c.address == lowerStr p) with
          | some c => [c]
          | none => []
  reg.foldl (fun acc c => if c ∈ acc then acc else acc ++ [c]) start

/-- `process_withdrawal(user_wallet, amount_requested, preferred_contract)`
(lines 120-244 of `main.py`), returning the trace of attempted operations
together with the result (`Except.error` models a raised exception). -/
def process_withdrawal (env : ChainEnv) (wallet : String) (amount : ℚ)
    (pref : Option String) :
    List AttemptEv × Except WithdrawErr WithdrawResult :=
  if env.connected = false then ([], Except.error WithdrawErr.notConnected)
  else if env.isAddress wallet = false then ([], Except.error WithdrawErr.invalidWallet)
  else if amount ≤ 0 then ([], Except.error WithdrawErr.invalidAmount)
  else withdrawLoop env amount (build_contract_list CONTRACTS pref) 0 []

/-- The dispatch ended in one of the precondition failures (not exhaustion,
not success). -/
def isPrecondFailure : Except WithdrawErr WithdrawResult → Bool
  | Except.error e => e.isPrecond
  | Except.ok _ => false

/-- `POST /api/engine/withdraw` (lines 290-315 of `main.py`): gate on the
startup readiness flag (503), reject a missing/empty wallet field or
non-positive amount (400), delegate to the dispatcher, and wrap any
exception it raises — `HTTPException` and `ValueError` alike — in
`HTTPException(500, f"Withdrawal failed: {error}")`. -/
def withdraw_endpoint (env : ChainEnv) (web3Ready : Bool)
    (walletField : Option String) (amountField : ℚ) (tokenAddr : Option String) :
    Except (Nat × String) WithdrawResult :=
  if web3Ready = false then
    Except.error (503, "Backend not connected to blockchain")
  else
    let wallet := walletField.getD ""
    if wallet = "" ∨ amountField ≤ 0 then
      Except.error (400, "Invalid withdrawal request")
    else
      match process_withdrawal env wallet amountField tokenAddr with
      | (_, Except.ok r) => Except.ok r
      | (_, Except.error e) =>
          Except.error (500, "Withdrawal failed: " ++ errText e)

/-- Provenance of the admin wallet key. -/
inductive WalletSource where
  | seedPhrase
  | privateKey
deriving DecidableEq, Repr

/-- Environment for `init_web3`: wallet derivation from a mnemonic, wallet
loading from a raw private key (both returning `(private key, address)` or
`none` when the library call raises), and chain connectivity. -/
structure InitEnv where
  fromMnemonic : String → Option (String × String)
  fromKey : String → Option (String × String)
  connects : Bool

/-- The tail of `init_web3` after a wallet was obtained: require the
provider key, connect, and report the configured signer.  The balance
check is best-effort and cannot change the outcome. -/
def finishInit (env : InitEnv) (alchemyKey : String) (src : WalletSource)
    (kp : String × String) : Option (WalletSource × String × String) :=
  if alchemyKey = "" then none
  else if env.connects then some (src, kp.1, kp.2)
  else none

/-- `init_web3()` (lines 38-107 of `main.py`): if a seed phrase is
configured (non-empty), derive the wallet from it — a derivation failure
returns `False` with no fallback; only with no seed phrase configured is
the raw private key used (normalised to a `0x` prefix).  Success yields
`(wallet source, admin_private_key, admin_address)`. -/
def init_web3 (env : InitEnv) (seed pk alchemyKey : String) :
    Option (WalletSource × String × String) :=
  if seed ≠ "" then
    match env.fromMnemonic seed with
    | some kp => finishInit env alchemyKey WalletSource.seedPhrase kp
    | none => none
  else if pk ≠ "" then
    let key := if pk.startsWith "0x" then pk else "0x" ++ pk
    match env.fromKey key with
    | some kp => finishInit env alchemyKey WalletSource.privateKey kp
    | none => none
  else none

/-- Relation between adjacent trace events: a TRANSFER attempt directly
following a MINT attempt is on the same contract and takes its nonce from
the next, fresh `get_transaction_count` query — never from the query that
fed the MINT attempt. -/
def NonceFresh (env : ChainEnv) (e1 e2 : AttemptEv) : Prop :=
  e1.op = Op.mint → e2.op = Op.transfer →
    e1.cid = e2.cid ∧ e2.nonceIdx = e1.nonceIdx + 1 ∧
      e2.nonce = env.nonceAt (e1.nonceIdx + 1) ∧ e2.nonceIdx ≠ e1.nonceIdx

/-- Test environment: chain ready, every wallet valid, metadata resolves
to 8 decimals, every attempt reverts on-chain except TRANSFER on the third
contract, which succeeds. -/
def envThird : ChainEnv :=
  ⟨true, fun _ => true, fun _ => some ("WBTC", 8), fun _ => true, fun n => 7 + n,
    fun a op =>
      if op = Op.transfer ∧ a = contract3.address then AttemptRes.ok "0xabc" 123 45678
      else AttemptRes.failOnChain "execution reverted"⟩

/-- Test environment: chain ready, metadata lookup raises everywhere, and
every attempt succeeds immediately. -/
def envMint : ChainEnv :=
  ⟨true, fun _ => true, fun _ => none, fun _ => true, fun n => n,
    fun _ _ => AttemptRes.ok "0xdef" 55 60000⟩

/-- Test environment: chain ready, 6-decimal token, every attempt fails
before broadcast. -/
def envFail : ChainEnv :=
  ⟨true, fun _ => true, fun _ => some ("USDT", 6), fun _ => true, fun n => n,
    fun _ _ => AttemptRes.failNoSend "no gas"⟩

/-- Test environment: chain ready but address validation rejects every
destination wallet. -/
def envBadAddr : ChainEnv :=
  ⟨true, fun _ => false, fun _ => some ("TOK", 18), fun _ => true, fun n => n,
    fun _ _ => AttemptRes.failOnChain "revert"⟩

/-- Test initialization environment: mnemonic derivation raises, loading a
raw private key would succeed, chain connects. -/
def initFailEnv : InitEnv :=
  ⟨fun _ => none, fun k => some (k, "0xAdminAddr"), true⟩

/-! ## Contract ordering -/

/-- A registry whose identities are pairwise distinct has no duplicate
entries. -/
theorem nodup_of_distinct_ids (reg : List ContractData)
    (h : reg.Pairwise fun a b => a.id ≠ b.id) : reg.Nodup :=
  h.imp fun hab heq => hab (congrArg ContractData.id heq)

/-- The dedup-append fold of `build_contract_list` over a duplicate-free
list appends exactly the registry entries not already present. -/
theorem foldl_dedup_append (l : List ContractData) (hnd : l.Nodup) :
    ∀ acc : List ContractData,
      l.foldl (fun a c => if c ∈ a then a else a ++ [c]) acc
        = acc ++ l.filter (fun c => decide (c ∉ acc)) := by
  induction l with
  | nil => intro acc; simp
  | cons c t ih =>
    intro acc
    have hnds := List.nodup_cons.mp hnd
    by_cases hc : c ∈ acc
    · simp only [List.foldl_cons, if_pos hc]
      rw [ih hnds.2 acc, List.filter_cons]
      simp [hc]
    · simp only [List.foldl_cons, if_neg hc]
      rw [ih hnds.2 (acc ++ [c]), List.filter_cons]
      have hfil : t.filter (fun x => decide (x ∉ acc ++ [c]))
          = t.filter (fun x => decide (x ∉ acc)) := by
        apply List.filter_congr
        intro x hx
        have hxc : x ≠ c := fun hxe => hnds.1 (hxe ▸ hx)
        simp [List.mem_append, hxc]
      rw [hfil]
      simp [hc]

/-- With no truthy preferred address the ordering is the native registry
order. -/
theorem build_native (reg : List ContractData) (hnd : reg.Nodup)
    (pref : Option String)
    (hp : pref = none ∨ pref = some "" ∨
      ∃ p, pref = some p ∧
        reg.find? (fun c => lowerStr c.address == lowerStr p) = none) :
    build_contract_list reg pref = reg := by
  have hbase : reg.foldl (fun a c => if c ∈ a then a else a ++ [c]) [] = reg := by
    rw [foldl_dedup_append reg hnd []]
    simp
  rcases hp with rfl | rfl | ⟨p, rfl, hf⟩
  · exact hbase
  · simpa [build_contract_list] using hbase
  · by_cases hpe : p = ""
    · subst hpe; simpa [build_contract_list] using hbase
    · simpa [build_contract_list, hpe, hf] using hbase

/-- With a truthy preferred address matching entry `e`, the ordering is
`e` followed by the rest of the registry in native order. -/
theorem build_found (reg : List ContractData) (hnd : reg.Nodup) (p : String)
    (e : ContractData) (hpe : p ≠ "")
    (hf : reg.find? (fun c => lowerStr c.address == lowerStr p) = some e) :
    build_contract_list reg (some p) = e :: reg.erase e := by
  have hfold := foldl_dedup_append reg hnd [e]
  have hfil : reg.filter (fun x => decide (x ∉ [e])) = reg.erase e := by
    rw [List.Nodup.erase_eq_filter hnd]
    apply List.filter_congr
    intro x _
    simp only [List.mem_singleton, bne, decide_not]
    rfl
  simp only [build_contract_list, hf, if_neg hpe]
  rw [hfold, hfil]
  simp

/-- The ordering is always a permutation of the registry. -/
theorem build_perm (reg : List ContractData) (hnd : reg.Nodup)
    (pref : Option String) : (build_contract_list reg pref).Perm reg := by
  cases pref with
  | none => rw [build_native reg hnd none (Or.inl rfl)]
  | some p =>
    by_cases hpe : p = ""
    · subst hpe
      rw [build_native reg hnd (some "") (Or.inr (Or.inl rfl))]
    · cases hf : reg.find? (fun c => lowerStr c.address == lowerStr p) with
      | none =>
          rw [build_native reg hnd (some p) (Or.inr (Or.inr ⟨p, rfl, hf⟩))]
      | some e =>
          rw [build_found reg hnd p e hpe hf]
          exact (List.perm_cons_erase (List.mem_of_find?_eq_some hf)).symm

/-- C4: For every registry with pairwise-distinct identities (the data
model orders registries totally by identity) and every optional preferred
address, the ordering is a permutation of exactly the registry entries; a
case-insensitive match on the preferred address is placed first with the
remaining entries in native order, and with no truthy or matching
preferred address the ordering equals the native registry order. -/
theorem contract_ordering_spec (reg : List ContractData) (pref : Option String)
    (hids : reg.Pairwise fun a b => a.id ≠ b.id) :
    (build_contract_list reg pref).Perm reg ∧
    (∀ p e, pref = some p → p ≠ "" →
      reg.find? (fun c => lowerStr c.address == lowerStr p) = some e →
      build_contract_list reg pref = e :: reg.erase e) ∧
    ((pref = none ∨ pref = some "" ∨
      ∃ p, pref = some p ∧
        reg.find? (fun c => lowerStr c.address == lowerStr p) = none) →
      build_contract_list reg pref = reg) := by
  have hnd := nodup_of_distinct_ids reg hids
  refine ⟨build_perm reg hnd pref, ?_, ?_⟩
  · intro p e hp hpe hf
    subst hp
    exact build_found reg hnd p e hpe hf
  · intro hp
    exact build_native reg hnd pref hp

/-- C4 witness: an upper-cased variant of the secondary contract address
is matched case-insensitively and placed first. -/
theorem contract_ordering_spec_check :
    build_contract_list CONTRACTS (some "0X0B8ADD0D32EFAF79E6DB4C58CCA61D6EFBCCAA3D")
      = contract2 :: CONTRACTS.erase contract2 :=
  (contract_ordering_spec CONTRACTS
      (some "0X0B8ADD0D32EFAF79E6DB4C58CCA61D6EFBCCAA3D") (by decide)).2.1
    "0X0B8ADD0D32EFAF79E6DB4C58CCA61D6EFBCCAA3D" contract2 rfl (by decide) (by decide)

/-! ## Dispatcher loop mechanics -/

/-- Loop step: a contract whose `tryContract` ends with no success falls
through to the next contract. -/
theorem withdrawLoop_cons_none (env : ChainEnv) (amount : ℚ) (c : ContractData)
    (rest : List ContractData) (ctr : Nat) (acc evs : List AttemptEv) (ctr2 : Nat)
    (h : tryContract env amount c ctr = (evs, ctr2, none)) :
    withdrawLoop env amount (c :: rest) ctr acc
      = withdrawLoop env amount rest ctr2 (acc ++ evs) := by
  simp only [withdrawLoop, h]

/-- Loop step: a contract whose `tryContract` succeeds terminates the
dispatch with that success. -/
theorem withdrawLoop_cons_some (env : ChainEnv) (amount : ℚ) (c : ContractData)
    (rest : List ContractData) (ctr : Nat) (acc evs : List AttemptEv) (ctr2 : Nat)
    (r : WithdrawResult)
    (h : tryContract env amount c ctr = (evs, ctr2, some r)) :
    withdrawLoop env amount (c :: rest) ctr acc = (acc ++ evs, Except.ok r) := by
  simp only [withdrawLoop, h]

/-- `tryContract` when `mint()` succeeds: a single successful MINT attempt. -/
theorem tryContract_mint_ok (env : ChainEnv) (amount : ℚ) (c : ContractData)
    (ctr : Nat) (h : String) (bn g : Nat)
    (hs : env.chainOk c.address = true)
    (hm : env.attempt c.address Op.mint = AttemptRes.ok h bn g) :
    tryContract env amount c ctr
      = ([mintEv env amount c ctr true true], ctr + 1,
          some ⟨Op.mint, c.name, c.address, h, bn, (tokenInfo env c.address).1, g⟩) := by
  simp [tryContract, hs, hm]

/-- `tryContract` when both operations fail: a failed MINT attempt then a
failed TRANSFER attempt, no success. -/
theorem tryContract_both_fail (env : ChainEnv) (amount : ℚ) (c : ContractData)
    (ctr : Nat) (hs : env.chainOk c.address = true)
    (hm : (env.attempt c.address Op.mint).isOk = false)
    (ht : (env.attempt c.address Op.transfer).isOk = false) :
    ∃ s1 s2, tryContract env amount c ctr
      = ([mintEv env amount c ctr s1 false, transferEv env amount c ctr s2 false],
          ctr + 2, none) := by
  cases hm2 : env.attempt c.address Op.mint with
  | ok h bn g => rw [hm2] at hm; simp [AttemptRes.isOk] at hm
  | failNoSend r =>
    cases ht2 : env.attempt c.address Op.transfer with
    | ok h bn g => rw [ht2] at ht; simp [AttemptRes.isOk] at ht
    | failNoSend r2 => exact ⟨false, false, by simp [tryContract, hs, hm2, ht2]⟩
    | failOnChain r2 => exact ⟨false, true, by simp [tryContract, hs, hm2, ht2]⟩
  | failOnChain r =>
    cases ht2 : env.attempt c.address Op.transfer with
    | ok h bn g => rw [ht2] at ht; simp [AttemptRes.isOk] at ht
    | failNoSend r2 => exact ⟨true, false, by simp [tryContract, hs, hm2, ht2]⟩
    | failOnChain r2 => exact ⟨true, true, by simp [tryContract, hs, hm2, ht2]⟩

/-- `tryContract` when `mint()` fails and `transfer()` succeeds: a failed
MINT attempt then a successful TRANSFER attempt carrying the success
outcome. -/
theorem tryContract_transfer_ok (env : ChainEnv) (amount : ℚ) (c : ContractData)
    (ctr : Nat) (h : String) (bn g : Nat)
    (hs : env.chainOk c.address = true)
    (hm : (env.attempt c.address Op.mint).isOk = false)
    (ht : env.attempt c.address Op.transfer = AttemptRes.ok h bn g) :
    ∃ s1, tryContract env amount c ctr
      = ([mintEv env amount c ctr s1 false, transferEv env amount c ctr true true],
          ctr + 2,
          some ⟨Op.transfer, c.name, c.address, h, bn, (tokenInfo env c.address).1, g⟩) := by
  cases hm2 : env.attempt c.address Op.mint with
  | ok h2 bn2 g2 => rw [hm2] at hm; simp [AttemptRes.isOk] at hm
  | failNoSend r => exact ⟨false, by simp [tryContract, hs, hm2, ht]⟩
  | failOnChain r => exact ⟨true, by simp [tryContract, hs, hm2, ht]⟩

/-- Exhaustive shape analysis of `tryContract`: a successful single MINT
attempt, a MINT attempt followed by a TRANSFER attempt (with the success
outcome, if any, a TRANSFER outcome on this contract), or nothing when the
per-contract chain setup failed. -/
theorem tryContract_cases (env : ChainEnv) (amount : ℚ) (c : ContractData)
    (ctr : Nat) :
    (∃ h bn g, tryContract env amount c ctr
        = ([mintEv env amount c ctr true true], ctr + 1,
            some ⟨Op.mint, c.name, c.address, h, bn, (tokenInfo env c.address).1, g⟩)) ∨
    (∃ s1 s2 k2 o, tryContract env amount c ctr
        = ([mintEv env amount c ctr s1 false, transferEv env amount c ctr s2 k2],
            ctr + 2, o) ∧
        (o = none ∨ ∃ h bn g, o = some ⟨Op.transfer, c.name, c.address, h, bn,
            (tokenInfo env c.address).1, g⟩)) ∨
    (env.chainOk c.address = false ∧ tryContract env amount c ctr = ([], ctr, none)) := by
  cases hs : env.chainOk c.address with
  | false => exact Or.inr (Or.inr ⟨rfl, by simp [tryContract, hs]⟩)
  | true =>
    cases hm : env.attempt c.address Op.mint with
    | ok h bn g => exact Or.inl ⟨h, bn, g, by simp [tryContract, hs, hm]⟩
    | failNoSend r =>
      cases ht : env.attempt c.address Op.transfer with
      | ok h bn g =>
          exact Or.inr (Or.inl ⟨false, true, true, _, by simp [tryContract, hs, hm, ht],
            Or.inr ⟨h, bn, g, rfl⟩⟩)
      | failNoSend r2 =>
          exact Or.inr (Or.inl ⟨false, false, false, none,
            by simp [tryContract, hs, hm, ht], Or.inl rfl⟩)
      | failOnChain r2 =>
          exact Or.inr (Or.inl ⟨false, true, false, none,
            by simp [tryContract, hs, hm, ht], Or.inl rfl⟩)
    | failOnChain r =>
      cases ht : env.attempt c.address Op.transfer with
      | ok h bn g =>
          exact Or.inr (Or.inl ⟨true, true, true, _, by simp [tryContract, hs, hm, ht],
            Or.inr ⟨h, bn, g, rfl⟩⟩)
      | failNoSend r2 =>
          exact Or.inr (Or.inl ⟨true, false, false, none,
            by simp [tryContract, hs, hm, ht], Or.inl rfl⟩)
      | failOnChain r2 =>
          exact Or.inr (Or.inl ⟨true, true, false, none,
            by simp [tryContract, hs, hm, ht], Or.inl rfl⟩)

/-! ## Early termination and the fallback order -/

/-- C2: If the MINT attempt on the first ordered contract succeeds, the
dispatch terminates at once with that success: the trace holds exactly
that one attempt (no later contract or operation is tried) and exactly
one signed transaction was broadcast. -/
theorem early_termination (env : ChainEnv) (wallet : String) (amount : ℚ)
    (pref : Option String) (c : ContractData) (rest : List ContractData)
    (hcon : env.connected = true) (hw : env.isAddress wallet = true)
    (ha : 0 < amount)
    (hl : build_contract_list CONTRACTS pref = c :: rest)
    (hs : env.chainOk c.address = true) (h : String) (bn g : Nat)
    (hm : env.attempt c.address Op.mint = AttemptRes.ok h bn g) :
    process_withdrawal env wallet amount pref
      = ([mintEv env amount c 0 true true],
          Except.ok ⟨Op.mint, c.name, c.address, h, bn, (tokenInfo env c.address).1, g⟩) ∧
    ((process_withdrawal env wallet amount pref).1.filter (fun e => e.sent)).length = 1 := by
  have hna : ¬ amount ≤ 0 := not_le.mpr ha
  have h1 : process_withdrawal env wallet amount pref
      = withdrawLoop env amount (c :: rest) 0 [] := by
    simp [process_withdrawal, hcon, hw, hna, hl]
  have h2 := tryContract_mint_ok env amount c 0 h bn g hs hm
  have h3 : process_withdrawal env wallet amount pref
      = ([mintEv env amount c 0 true true],
          Except.ok ⟨Op.mint, c.name, c.address, h, bn, (tokenInfo env c.address).1, g⟩) := by
    rw [h1, withdrawLoop_cons_some env amount c rest 0 [] _ _ _ h2]
    simp
  refine ⟨h3, ?_⟩
  rw [h3]
  simp [mintEv]

/-- C2 witness. -/
theorem early_termination_check :
    process_withdrawal envMint "0xu" 1 none
      = ([mintEv envMint 1 contract1 0 true true],
          Except.ok ⟨Op.mint, contract1.name, contract1.address, "0xdef", 55,
            (tokenInfo envMint contract1.address).1, 60000⟩) ∧
    ((process_withdrawal envMint "0xu" 1 none).1.filter (fun e => e.sent)).length = 1 :=
  early_termination envMint "0xu" 1 none contract1 [contract2, contract3] rfl rfl
    (by norm_num) (by decide) rfl "0xdef" 55 60000 rfl

/-- C1: When MINT fails on every contract and TRANSFER fails on the first
two but succeeds on the third, the trace is exactly the six attempts in
contract-then-operation order — c1-MINT, c1-TRANSFER, c2-MINT,
c2-TRANSFER, c3-MINT, c3-TRANSFER-success — and the returned outcome
reports the third contract (identity 3, name "Tertiary") and operation
kind TRANSFER. -/
theorem fallback_order_third_transfer (env : ChainEnv) (wallet : String)
    (amount : ℚ) (hcon : env.connected = true) (hw : env.isAddress wallet = true)
    (ha : 0 < amount)
    (hs : ∀ c ∈ CONTRACTS, env.chainOk c.address = true)
    (hm : ∀ c ∈ CONTRACTS, (env.attempt c.address Op.mint).isOk = false)
    (ht1 : (env.attempt contract1.address Op.transfer).isOk = false)
    (ht2 : (env.attempt contract2.address Op.transfer).isOk = false)
    (h : String) (bn g : Nat)
    (ht3 : env.attempt contract3.address Op.transfer = AttemptRes.ok h bn g) :
    ((process_withdrawal env wallet amount none).1.map fun e => (e.cid, e.op, e.ok))
      = [(1, Op.mint, false), (1, Op.transfer, false), (2, Op.mint, false),
          (2, Op.transfer, false), (3, Op.mint, false), (3, Op.transfer, true)] ∧
    (process_withdrawal env wallet amount none).2
      = Except.ok ⟨Op.transfer, contract3.name, contract3.address, h, bn,
          (tokenInfo env contract3.address).1, g⟩ ∧
    contract3.id = 3 ∧ contract3.name = "Tertiary" := by
  have hna : ¬ amount ≤ 0 := not_le.mpr ha
  have hb : build_contract_list CONTRACTS none = [contract1, contract2, contract3] := by
    decide
  have h0 : process_withdrawal env wallet amount none
      = withdrawLoop env amount [contract1, contract2, contract3] 0 [] := by
    simp [process_withdrawal, hcon, hw, hna, hb]
  obtain ⟨s1, s2, e1⟩ := tryContract_both_fail env amount contract1 0
    (hs contract1 (by decide)) (hm contract1 (by decide)) ht1
  obtain ⟨s3, s4, e2⟩ := tryContract_both_fail env amount contract2 2
    (hs contract2 (by decide)) (hm contract2 (by decide)) ht2
  obtain ⟨s5, e3⟩ := tryContract_transfer_ok env amount contract3 4 h bn g
    (hs contract3 (by decide)) (hm contract3 (by decide)) ht3
  have hfull : process_withdrawal env wallet amount none
      = ([mintEv env amount contract1 0 s1 false, transferEv env amount contract1 0 s2 false,
          mintEv env amount contract2 2 s3 false, transferEv env amount contract2 2 s4 false,
          mintEv env amount contract3 4 s5 false, transferEv env amount contract3 4 true true],
          Except.ok ⟨Op.transfer, contract3.name, contract3.address, h, bn,
            (tokenInfo env contract3.address).1, g⟩) := by
    rw [h0, withdrawLoop_cons_none env amount contract1 _ 0 [] _ _ e1,
      withdrawLoop_cons_none env amount contract2 _ 2 _ _ _ e2,
      withdrawLoop_cons_some env amount contract3 _ 4 _ _ _ _ e3]
    simp
  rw [hfull]
  refine ⟨?_, rfl, rfl, rfl⟩
  simp [mintEv, transferEv, contract1, contract2, contract3]

/-- C1 witness. -/
theorem fallback_order_third_transfer_check :
    ((process_withdrawal envThird "0xuser" 2 none).1.map fun e => (e.cid, e.op, e.ok))
      = [(1, Op.mint, false), (1, Op.transfer, false), (2, Op.mint, false),
          (2, Op.transfer, false), (3, Op.mint, false), (3, Op.transfer, true)] ∧
    (process_withdrawal envThird "0xuser" 2 none).2
      = Except.ok ⟨Op.transfer, contract3.name, contract3.address, "0xabc", 123,
          (tokenInfo envThird contract3.address).1, 45678⟩ ∧
    contract3.id = 3 ∧ contract3.name = "Tertiary" :=
  fallback_order_third_transfer envThird "0xuser" 2 rfl rfl (by norm_num)
    (fun c _ => rfl) (by intro c _; simp [envThird, AttemptRes.isOk])
    (by decide) (by decide) "0xabc" 123 45678 (by decide)

/-! ## Exhaustion -/

/-- When every contract's setup succeeds and both of its operations fail,
the loop attempts each ordered contract's MINT then TRANSFER exactly once
and ends with the exhaustion error. -/
theorem withdrawLoop_all_fail (env : ChainEnv) (amount : ℚ) :
    ∀ (l : List ContractData),
      (∀ c ∈ l, env.chainOk c.address = true ∧
        (env.attempt c.address Op.mint).isOk = false ∧
        (env.attempt c.address Op.transfer).isOk = false) →
      ∀ (ctr : Nat) (acc : List AttemptEv), ∃ evs,
        withdrawLoop env amount l ctr acc
          = (acc ++ evs, Except.error WithdrawErr.exhausted) ∧
        (evs.map fun e => (e.cid, e.op))
          = l.flatMap (fun c => [(c.id, Op.mint), (c.id, Op.transfer)]) ∧
        ∀ e ∈ evs, e.ok = false := by
  intro l
  induction l with
  | nil =>
      intro _ ctr acc
      exact ⟨[], by simp [withdrawLoop], by simp, by simp⟩
  | cons c t ih =>
      intro hall ctr acc
      obtain ⟨hs, hm, ht⟩ := hall c (List.mem_cons_self c t)
      obtain ⟨s1, s2, he⟩ := tryContract_both_fail env amount c ctr hs hm ht
      obtain ⟨evs, h1, h2, h3⟩ := ih (fun x hx => hall x (List.mem_cons_of_mem c hx))
        (ctr + 2) (acc ++ [mintEv env amount c ctr s1 false, transferEv env amount c ctr s2 false])
      refine ⟨[mintEv env amount c ctr s1 false, transferEv env amount c ctr s2 false] ++ evs,
        ?_, ?_, ?_⟩
      · rw [withdrawLoop_cons_none env amount c t ctr acc _ _ he, h1, List.append_assoc]
      · simp [h2, mintEv, transferEv]
      · intro e hme
        rcases List.mem_append.mp hme with hin | hin
        · simp only [List.mem_cons, List.not_mem_nil, or_false] at hin
          rcases hin with rfl | rfl
          · rfl
          · rfl
        · exact h3 e hin

/-- C3: when all three contracts' two operations fail, the dispatcher
raises the exhaustion error (no success outcome, so no value is reported
moved), and the trace attempts each contract/operation pair exactly once
— the dispatcher itself performs no further retries. -/
theorem exhaustion_terminal (env : ChainEnv) (wallet : String) (amount : ℚ)
    (pref : Option String) (hcon : env.connected = true)
    (hw : env.isAddress wallet = true) (ha : 0 < amount)
    (hf : ∀ c ∈ CONTRACTS, env.chainOk c.address = true ∧
      (env.attempt c.address Op.mint).isOk = false ∧
      (env.attempt c.address Op.transfer).isOk = false) :
    (process_withdrawal env wallet amount pref).2
        = Except.error WithdrawErr.exhausted ∧
    ((process_withdrawal env wallet amount pref).1.map fun e => (e.cid, e.op)).Perm
      [(1, Op.mint), (1, Op.transfer), (2, Op.mint), (2, Op.transfer),
        (3, Op.mint), (3, Op.transfer)] ∧
    ∀ e ∈ (process_withdrawal env wallet amount pref).1, e.ok = false := by
  have hna : ¬ amount ≤ 0 := not_le.mpr ha
  have hperm : (build_contract_list CONTRACTS pref).Perm CONTRACTS :=
    build_perm CONTRACTS (by decide) pref
  have hf2 : ∀ c ∈ build_contract_list CONTRACTS pref,
      env.chainOk c.address = true ∧
      (env.attempt c.address Op.mint).isOk = false ∧
      (env.attempt c.address Op.transfer).isOk = false :=
    fun c hc => hf c (hperm.subset hc)
  obtain ⟨evs, h1, h2, h3⟩ := withdrawLoop_all_fail env amount _ hf2 0 []
  have hp : process_withdrawal env wallet amount pref
      = (evs, Except.error WithdrawErr.exhausted) := by
    simp only [process_withdrawal, hcon, hw, hna]
    simpa using h1
  rw [hp]
  refine ⟨rfl, ?_, h3⟩
  have h4 : CONTRACTS.flatMap (fun c => [(c.id, Op.mint), (c.id, Op.transfer)])
      = [(1, Op.mint), (1, Op.transfer), (2, Op.mint), (2, Op.transfer),
          (3, Op.mint), (3, Op.transfer)] := rfl
  rw [h2, ← h4]
  exact hperm.flatMap_right _

/-- C3 witness: preferred address set to the tertiary contract, every
attempt failing. -/
theorem exhaustion_terminal_check :
    (process_withdrawal envFail "0xu" 5
        (some "0xf97A395850304b8ec9B8f9c80A17674886612065")).2
      = Except.error WithdrawErr.exhausted :=
  (exhaustion_terminal envFail "0xu" 5
      (some "0xf97A395850304b8ec9B8f9c80A17674886612065") rfl rfl (by norm_num)
      (fun c _ => ⟨rfl, rfl, rfl⟩)).1

/-! ## Precondition failures -/

/-- C5: a malformed destination address or a non-positive amount makes the
dispatcher fail with a classified precondition error before any chain call
is attempted — the trace is empty, so zero transactions are broadcast. -/
theorem precondition_reject (env : ChainEnv) (wallet : String) (amount : ℚ)
    (pref : Option String)
    (h : env.isAddress wallet = false ∨ amount ≤ 0) :
    (process_withdrawal env wallet amount pref).1 = [] ∧
    isPrecondFailure (process_withdrawal env wallet amount pref).2 = true := by
  cases hcon : env.connected with
  | false =>
      simp [process_withdrawal, hcon, isPrecondFailure, WithdrawErr.isPrecond]
  | true =>
      rcases h with h | h
      · simp [process_withdrawal, hcon, h, isPrecondFailure, WithdrawErr.isPrecond]
      · cases hw : env.isAddress wallet with
        | false =>
            simp [process_withdrawal, hcon, hw, isPrecondFailure, WithdrawErr.isPrecond]
        | true =>
            simp [process_withdrawal, hcon, hw, h, isPrecondFailure, WithdrawErr.isPrecond]

/-- C5 witness: a non-positive amount is rejected with no attempts. -/
theorem precondition_reject_check :
    (process_withdrawal envThird "0xu" (-3) none).1 = [] ∧
    isPrecondFailure (process_withdrawal envThird "0xu" (-3) none).2 = true :=
  precondition_reject envThird "0xu" (-3) none (Or.inr (by norm_num))

/-! ## Nonce freshness -/

/-- The two events of one failed-MINT-then-TRANSFER chunk are related by
`NonceFresh`. -/
theorem nonceFresh_chunk (env : ChainEnv) (amount : ℚ) (c : ContractData)
    (ctr : Nat) (s1 s2 k2 : Bool) :
    NonceFresh env (mintEv env amount c ctr s1 false)
      (transferEv env amount c ctr s2 k2) := by
  intro _ _
  refine ⟨rfl, rfl, rfl, ?_⟩
  simp [mintEv, transferEv]

/-- The loop preserves the adjacent nonce-freshness chain, provided the
accumulated trace is itself a chain and does not end in a MINT event. -/
theorem withdrawLoop_chain (env : ChainEnv) (amount : ℚ) :
    ∀ (l : List ContractData) (ctr : Nat) (acc : List AttemptEv),
      List.Chain' (NonceFresh env) acc →
      (∀ x, acc.getLast? = some x → x.op = Op.transfer) →
      List.Chain' (NonceFresh env) (withdrawLoop env amount l ctr acc).1 := by
  intro l
  induction l with
  | nil =>
      intro ctr acc hch _
      simpa [withdrawLoop] using hch
  | cons c t ih =>
      intro ctr acc hch hlast
      rcases tryContract_cases env amount c ctr with
        ⟨h, bn, g, hc⟩ | ⟨s1, s2, k2, o, hc, _⟩ | ⟨_, hc⟩
      · rw [withdrawLoop_cons_some env amount c t ctr acc _ _ _ hc]
        refine List.chain'_append.mpr ⟨hch, List.chain'_singleton _, ?_⟩
        intro x hx y hy
        simp only [List.head?_cons, Option.mem_def, Option.some.injEq] at hy
        intro _ hyt
        rw [← hy] at hyt
        simp [mintEv] at hyt
      · have hch2 : List.Chain' (NonceFresh env)
            (acc ++ [mintEv env amount c ctr s1 false, transferEv env amount c ctr s2 k2]) := by
          refine List.chain'_append.mpr ⟨hch, ?_, ?_⟩
          · refine List.chain'_cons.mpr ⟨nonceFresh_chunk env amount c ctr s1 s2 k2,
              List.chain'_singleton _⟩
          · intro x hx y hy
            simp only [List.head?_cons, Option.mem_def, Option.some.injEq] at hy
            intro hxm _
            rw [hlast x hx] at hxm
            simp at hxm
        have hlast2 : ∀ x, (acc ++ [mintEv env amount c ctr s1 false,
            transferEv env amount c ctr s2 k2]).getLast? = some x →
            x.op = Op.transfer := by
          intro x hx
          have : (acc ++ [mintEv env amount c ctr s1 false,
              transferEv env amount c ctr s2 k2]).getLast?
              = some (transferEv env amount c ctr s2 k2) := by
            rw [show acc ++ [mintEv env amount c ctr s1 false,
                transferEv env amount c ctr s2 k2]
              = (acc ++ [mintEv env amount c ctr s1 false])
                  ++ [transferEv env amount c ctr s2 k2] by simp,
              List.getLast?_concat]
          rw [this] at hx
          cases hx
          rfl
        cases o with
        | some r =>
            rw [withdrawLoop_cons_some env amount c t ctr acc _ _ _ hc]
            exact hch2
        | none =>
            rw [withdrawLoop_cons_none env amount c t ctr acc _ _ hc]
            exact ih (ctr + 2) _ hch2 hlast2
      · rw [withdrawLoop_cons_none env amount c t ctr acc _ _ hc]
        simpa using ih ctr acc hch hlast

/-- C6: in every dispatch trace, a TRANSFER attempt directly following a
MINT attempt is on the same contract and its nonce comes from a fresh
`get_transaction_count` query — the query index strictly follows the
MINT attempt's, so the MINT nonce query is never reused. -/
theorem transfer_nonce_fresh (env : ChainEnv) (wallet : String) (amount : ℚ)
    (pref : Option String) :
    List.Chain' (NonceFresh env) (process_withdrawal env wallet amount pref).1 := by
  unfold process_withdrawal
  by_cases h1 : env.connected = false
  · simp [h1]
  · by_cases h2 : env.isAddress wallet = false
    · simp [h1, h2]
    · by_cases h3 : amount ≤ 0
      · simp [h1, h2, h3]
      · simp only [h1, h2, h3, if_false]
        exact withdrawLoop_chain env amount _ 0 [] (by simp) (by intro x hx; simp at hx)

/-- C6 witness. -/
theorem transfer_nonce_fresh_check :
    List.Chain' (NonceFresh envThird) (process_withdrawal envThird "0xu" 2 none).1 :=
  transfer_nonce_fresh envThird "0xu" 2 none

/-! ## Amount conversion and metadata fallback -/

/-- Every event of the loop trace (beyond the accumulator) carries the
base-unit amount computed from the resolved decimals of its contract. -/
theorem withdrawLoop_amountWei (env : ChainEnv) (amount : ℚ) :
    ∀ (l : List ContractData) (ctr : Nat) (acc : List AttemptEv) (e : AttemptEv),
      e ∈ (withdrawLoop env amount l ctr acc).1 →
      e ∈ acc ∨ e.amountWei = pyInt (amount * (10 : ℚ) ^ (tokenInfo env e.address).2) := by
  intro l
  induction l with
  | nil =>
      intro ctr acc e he
      left
      simpa [withdrawLoop] using he
  | cons c t ih =>
      intro ctr acc e he
      rcases tryContract_cases env amount c ctr with
        ⟨h, bn, g, hc⟩ | ⟨s1, s2, k2, o, hc, _⟩ | ⟨_, hc⟩
      · rw [withdrawLoop_cons_some env amount c t ctr acc _ _ _ hc] at he
        rcases List.mem_append.mp he with hin | hin
        · exact Or.inl hin
        · right
          simp only [List.mem_singleton] at hin
          subst hin
          rfl
      · have hstep : ∀ x, x ∈ acc ++ [mintEv env amount c ctr s1 false,
            transferEv env amount c ctr s2 k2] →
            x ∈ acc ∨ x.amountWei = pyInt (amount * (10 : ℚ) ^ (tokenInfo env x.address).2) := by
          intro x hx
          rcases List.mem_append.mp hx with hin | hin
          · exact Or.inl hin
          · right
            simp only [List.mem_cons, List.not_mem_nil, or_false] at hin
            rcases hin with rfl | rfl
            · rfl
            · rfl
        cases o with
        | some r =>
            rw [withdrawLoop_cons_some env amount c t ctr acc _ _ _ hc] at he
            exact hstep e he
        | none =>
            rw [withdrawLoop_cons_none env amount c t ctr acc _ _ hc] at he
            rcases ih (ctr + 2) _ e he with hin | hin
            · exact hstep e hin
            · exact Or.inr hin
      · rw [withdrawLoop_cons_none env amount c t ctr acc _ _ hc] at he
        rcases ih ctr _ e (by simpa using he) with hin | hin
        · exact Or.inl (by simpa using hin)
        · exact Or.inr hin

/-- A success outcome of the loop carries the symbol resolved (with
fallback) for the contract whose address it reports. -/
theorem withdrawLoop_symbol (env : ChainEnv) (amount : ℚ) :
    ∀ (l : List ContractData) (ctr : Nat) (acc : List AttemptEv) (r : WithdrawResult),
      (withdrawLoop env amount l ctr acc).2 = Except.ok r →
      r.symbol = (tokenInfo env r.contractAddress).1 := by
  intro l
  induction l with
  | nil =>
      intro ctr acc r hr
      simp [withdrawLoop] at hr
  | cons c t ih =>
      intro ctr acc r hr
      rcases tryContract_cases env amount c ctr with
        ⟨h, bn, g, hc⟩ | ⟨s1, s2, k2, o, hc, ho⟩ | ⟨_, hc⟩
      · rw [withdrawLoop_cons_some env amount c t ctr acc _ _ _ hc] at hr
        simp only [Except.ok.injEq] at hr
        subst hr
        rfl
      · cases o with
        | some r2 =>
            rcases ho with ho | ⟨h, bn, g, ho⟩
            · exact absurd ho (by simp)
            · rw [withdrawLoop_cons_some env amount c t ctr acc _ _ _ (ho ▸ hc)] at hr
              simp only [Except.ok.injEq] at hr
              subst hr
              rfl
        | none =>
            rw [withdrawLoop_cons_none env amount c t ctr acc _ _ hc] at hr
            exact ih (ctr + 2) _ r hr
      · rw [withdrawLoop_cons_none env amount c t ctr acc _ _ hc] at hr
        exact ih ctr _ r hr

/-- The loop only ever extends the accumulated trace. -/
theorem withdrawLoop_extends (env : ChainEnv) (amount : ℚ) :
    ∀ (l : List ContractData) (ctr : Nat) (acc : List AttemptEv),
      ∃ s, (withdrawLoop env amount l ctr acc).1 = acc ++ s := by
  intro l
  induction l with
  | nil =>
      intro ctr acc
      exact ⟨[], by simp [withdrawLoop]⟩
  | cons c t ih =>
      intro ctr acc
      rcases hc : tryContract env amount c ctr with ⟨evs, ctr2, o⟩
      cases o with
      | some r =>
          exact ⟨evs, by rw [withdrawLoop_cons_some env amount c t ctr acc _ _ _ hc]⟩
      | none =>
          obtain ⟨s, hs⟩ := ih ctr2 (acc ++ evs)
          exact ⟨evs ++ s, by
            rw [withdrawLoop_cons_none env amount c t ctr acc _ _ hc, hs,
              List.append_assoc]⟩

/-- C9: a failed token-metadata lookup is never surfaced and never aborts
the dispatch: every attempt on a metadata-failed contract uses the default
18-decimal precision, a success outcome from such a contract reports the
default symbol "TOKEN", and when the first ordered contract's metadata
lookup fails (with its chain setup fine) its MINT attempt still opens the
trace. -/
theorem metadata_fallback (env : ChainEnv) (wallet : String) (amount : ℚ)
    (pref : Option String) (hcon : env.connected = true)
    (hw : env.isAddress wallet = true) (ha : 0 < amount) :
    (∀ e ∈ (process_withdrawal env wallet amount pref).1,
      env.metadata e.address = none →
      e.amountWei = pyInt (amount * (10 : ℚ) ^ (18 : Nat))) ∧
    (∀ r, (process_withdrawal env wallet amount pref).2 = Except.ok r →
      env.metadata r.contractAddress = none → r.symbol = "TOKEN") ∧
    (∀ c rest, build_contract_list CONTRACTS pref = c :: rest →
      env.chainOk c.address = true → env.metadata c.address = none →
      ∃ e s, (process_withdrawal env wallet amount pref).1 = e :: s ∧
        e.cid = c.id ∧ e.op = Op.mint ∧
        e.amountWei = pyInt (amount * (10 : ℚ) ^ (18 : Nat))) := by
  have hna : ¬ amount ≤ 0 := not_le.mpr ha
  have hx : process_withdrawal env wallet amount pref
      = withdrawLoop env amount (build_contract_list CONTRACTS pref) 0 [] := by
    simp [process_withdrawal, hcon, hw, hna]
  refine ⟨?_, ?_, ?_⟩
  · intro e he hmeta
    rw [hx] at he
    rcases withdrawLoop_amountWei env amount _ 0 [] e he with hin | hin
    · simp at hin
    · rw [hin]
      simp [tokenInfo, hmeta]
  · intro r hr hmeta
    rw [hx] at hr
    have := withdrawLoop_symbol env amount _ 0 [] r hr
    rw [this]
    simp [tokenInfo, hmeta]
  · intro c rest hl hs hmeta
    rw [hx, hl]
    have hamt : pyInt (amount * (10 : ℚ) ^ (tokenInfo env c.address).2)
        = pyInt (amount * (10 : ℚ) ^ (18 : Nat)) := by
      simp [tokenInfo, hmeta]
    rcases tryContract_cases env amount c 0 with
      ⟨h, bn, g, hc⟩ | ⟨s1, s2, k2, o, hc, _⟩ | ⟨hf, _⟩
    · rw [withdrawLoop_cons_some env amount c rest 0 [] _ _ _ hc]
      exact ⟨mintEv env amount c 0 true true, [], by simp, rfl, rfl, hamt⟩
    · cases o with
      | some r =>
          rw [withdrawLoop_cons_some env amount c rest 0 [] _ _ _ hc]
          exact ⟨mintEv env amount c 0 s1 false,
            [transferEv env amount c 0 s2 k2], by simp, rfl, rfl, hamt⟩
      | none =>
          rw [withdrawLoop_cons_none env amount c rest 0 [] _ _ hc]
          obtain ⟨s, hsx⟩ := withdrawLoop_extends env amount rest 2
            ([] ++ [mintEv env amount c 0 s1 false, transferEv env amount c 0 s2 k2])
          rw [hsx]
          exact ⟨mintEv env amount c 0 s1 false,
            [transferEv env amount c 0 s2 k2] ++ s, by simp, rfl, rfl, hamt⟩
    · rw [hs] at hf
      cases hf


/-- C9 witness: `envMint` has no metadata anywhere, yet the dispatch
succeeds and reports the default symbol. -/
theorem metadata_fallback_check :
    (⟨Op.mint, contract1.name, contract1.address, "0xdef", 55,
        (tokenInfo envMint contract1.address).1, 60000⟩ : WithdrawResult).symbol
      = "TOKEN" :=
  (metadata_fallback envMint "0xu" 1 none rfl rfl (by norm_num)).2.1
    ⟨Op.mint, contract1.name, contract1.address, "0xdef", 55,
      (tokenInfo envMint contract1.address).1, 60000⟩
    (by
      have hb : build_contract_list CONTRACTS none = [contract1, contract2, contract3] := by
        decide
      have h0 : process_withdrawal envMint "0xu" 1 none
          = withdrawLoop envMint 1 [contract1, contract2, contract3] 0 [] := by
        rw [process_withdrawal, if_neg (by decide), if_neg (by decide),
          if_neg (by norm_num), hb]
      have h2 := tryContract_mint_ok envMint 1 contract1 0 "0xdef" 55 60000 rfl rfl
      rw [h0, withdrawLoop_cons_some envMint 1 contract1 _ 0 [] _ _ _ h2])
    rfl

/-! ## HTTP status mapping -/

/-- C8 (amended): the withdraw endpoint returns 503 when the startup
readiness flag is down; 400 when the request is structurally invalid at
the endpoint — wallet field missing/empty or amount non-positive; and 500
for every failure the dispatcher raises, which includes a
present-but-malformed destination address as well as exhaustion and
mid-flight errors. -/
theorem endpoint_status_map (env : ChainEnv) (walletField : Option String)
    (amountField : ℚ) (tokenAddr : Option String) :
    (withdraw_endpoint env false walletField amountField tokenAddr
      = Except.error (503, "Backend not connected to blockchain")) ∧
    ((walletField.getD "" = "" ∨ amountField ≤ 0) →
      withdraw_endpoint env true walletField amountField tokenAddr
        = Except.error (400, "Invalid withdrawal request")) ∧
    (∀ er, (process_withdrawal env (walletField.getD "") amountField tokenAddr).2
        = Except.error er →
      ¬ (walletField.getD "" = "" ∨ amountField ≤ 0) →
      withdraw_endpoint env true walletField amountField tokenAddr
        = Except.error (500, "Withdrawal failed: " ++ errText er)) := by
  refine ⟨by simp [withdraw_endpoint], ?_, ?_⟩
  · intro h
    simp only [withdraw_endpoint]
    rw [if_neg (by simp), if_pos h]
  · intro er hp hno
    simp only [withdraw_endpoint]
    rw [if_neg (by simp), if_neg hno]
    rcases hq : process_withdrawal env (walletField.getD "") amountField tokenAddr with
      ⟨tr, res⟩
    rw [hq] at hp
    simp only at hp
    rw [hp]

/-- C8 counterexample: a present-but-malformed destination address passes
the endpoint's own field check, and the dispatcher's rejection is wrapped
as HTTP 500 — not the 400 the claim asserts. -/
theorem endpoint_malformed_is_500 :
    withdraw_endpoint envBadAddr true (some "0xNOTANADDRESS") 1 none
      = Except.error (500, "Withdrawal failed: Invalid wallet address") ∧
    envBadAddr.isAddress "0xNOTANADDRESS" = false := by
  constructor
  · have hp : process_withdrawal envBadAddr "0xNOTANADDRESS" 1 none
        = ([], Except.error WithdrawErr.invalidWallet) := by
      simp [process_withdrawal, envBadAddr]
    have hne : "0xNOTANADDRESS" ≠ "" := by decide
    have hle : ¬ (1 : ℚ) ≤ 0 := by norm_num
    simp [withdraw_endpoint, hp, hne, hle, errText]
  · rfl

/-- The dispatch against `envFail` ends exhausted. -/
theorem envFail_result :
    (process_withdrawal envFail "0xu" 5 none).2
      = Except.error WithdrawErr.exhausted := by
  obtain ⟨evs, h1, _, _⟩ := withdrawLoop_all_fail envFail 5
    (build_contract_list CONTRACTS none) (fun c _ => ⟨rfl, rfl, rfl⟩) 0 []
  have h0 : process_withdrawal envFail "0xu" 5 none
      = withdrawLoop envFail 5 (build_contract_list CONTRACTS none) 0 [] := by
    rw [process_withdrawal, if_neg (by decide), if_neg (by decide),
      if_neg (by norm_num)]
  rw [h0, h1]

/-- C8 witness: an exhausted dispatch surfaces as HTTP 500. -/
theorem endpoint_status_map_check :
    withdraw_endpoint envFail true (some "0xu") 5 none
      = Except.error (500, "Withdrawal failed: " ++ errText WithdrawErr.exhausted) :=
  (endpoint_status_map envFail (some "0xu") 5 none).2.2 WithdrawErr.exhausted
    envFail_result
    (by rw [not_or]; exact ⟨by decide, by norm_num⟩)

/-! ## Wallet initialization -/

/-- A successful `finishInit` keeps the wallet source it was given. -/
theorem finishInit_src (env : InitEnv) (alchemy : String) (src : WalletSource)
    (kp : String × String) (s : WalletSource) (k a : String)
    (h : finishInit env alchemy src kp = some (s, k, a)) : s = src := by
  by_cases h1 : alchemy = ""
  · simp [finishInit, h1] at h
  · by_cases h2 : env.connects = true
    · simp only [finishInit, if_neg h1, if_pos h2, Option.some.injEq,
        Prod.mk.injEq] at h
      exact h.1.symm
    · simp [finishInit, h1, h2] at h

/-- C10: with a seed phrase configured, a failed derivation fails the
whole initialization — there is no fallback to the configured private
key; the private-key path can only have produced the signer when no seed
phrase was configured at all. -/
theorem seed_phrase_precedence (env : InitEnv) (seed pk alchemy : String) :
    (seed ≠ "" → env.fromMnemonic seed = none →
      init_web3 env seed pk alchemy = none) ∧
    (∀ src key addr, init_web3 env seed pk alchemy = some (src, key, addr) →
      src = WalletSource.privateKey → seed = "") := by
  constructor
  · intro hs hm
    simp [init_web3, hs, hm]
  · intro src key addr hinit hsrc
    by_cases hs : seed = ""
    · exact hs
    · exfalso
      cases hm : env.fromMnemonic seed with
      | none => simp [init_web3, hs, hm] at hinit
      | some kp =>
          simp only [init_web3, if_pos hs, hm] at hinit
          have := finishInit_src env alchemy WalletSource.seedPhrase kp src key addr hinit
          rw [hsrc] at this
          cases this

/-- C10 witness: seed phrase present, derivation fails, initialization
returns no signer even though the private-key path would have succeeded. -/
theorem seed_phrase_precedence_check :
    init_web3 initFailEnv "exotic estate dinosaur" "0xac0974be" "alchemyKey" = none :=
  (seed_phrase_precedence initFailEnv "exotic estate dinosaur" "0xac0974be"
      "alchemyKey").1 (by decide) rfl

end Ultra
